import Mathlib

/-!
Verification of the `cute_gorl` vector-algebra library (src/vector2.rs,
src/vector3.rs, src/lib.rs).

The f64 components are embedded as exact real numbers: every arithmetic
operation of the source is translated literally, with `Real.sqrt`,
`Real.sin`, `Real.arctan`, `Real.arccos` standing for the corresponding
f64 intrinsics.  For the claims that hinge on IEEE-754 special values
(NaN, infinities) a second carrier `F` is used: a real number tagged
`fin`, or one of `pinf`, `ninf`, `nan`, with the IEEE propagation rules
for multiplication, addition, division and square root (rounding and
overflow are idealised away; signed zero is collapsed to the single real
zero, which none of the claims below distinguishes).
-/

namespace CuteGorl

/-- Shared numeric utilities, from src/lib.rs `mod math`. -/
def EPSILON : ℝ := 1e-8

/-- From src/lib.rs: `pub fn cosq(sin_a: f64) -> f64 { (1.0 - sin_a*sin_a).sqrt() }`. -/
noncomputable def cosq (sin_a : ℝ) : ℝ := Real.sqrt (1 - sin_a * sin_a)

/-- Planar vector, from src/vector2.rs: `pub struct Vector2 { pub x: f64, pub y: f64 }`. -/
@[ext]
structure Vector2 where
  x : ℝ
  y : ℝ

/-- Spatial vector, from src/vector3.rs: `pub struct Vector3 { x, y, z: f64 }`. -/
@[ext]
structure Vector3 where
  x : ℝ
  y : ℝ
  z : ℝ

/-- src/vector2.rs `is_nullvector`: `self.x == 0.0 && self.y == 0.0`. -/
def Vector2.is_nullvector (v : Vector2) : Prop := v.x = 0 ∧ v.y = 0

/-- src/vector2.rs `magn_sq`: `self.x*self.x + self.y*self.y`. -/
def Vector2.magn_sq (v : Vector2) : ℝ := v.x * v.x + v.y * v.y

/-- src/vector2.rs `magn`: `( self.x*self.x + self.y*self.y ).sqrt()`. -/
noncomputable def Vector2.magn (v : Vector2) : ℝ := Real.sqrt (v.x * v.x + v.y * v.y)

/-- src/vector2.rs `is_normalized`: `let diff = 1.0 - self.magn_sq(); diff.abs() < math::EPSILON`. -/
def Vector2.is_normalized (v : Vector2) : Prop := |1 - v.magn_sq| < EPSILON

/-- src/vector2.rs `scalar`: `v1.x * v2.x + v1.y * v2.y`. -/
def Vector2.scalar (v1 v2 : Vector2) : ℝ := v1.x * v2.x + v1.y * v2.y

/-- src/vector2.rs `normalize`: scales in place by `1.0 / self.magn()`;
modelled as a state transformer returning the new receiver value. -/
noncomputable def Vector2.normalize (v : Vector2) : Vector2 :=
  let inv_magn := 1 / v.magn
  ⟨v.x * inv_magn, v.y * inv_magn⟩

/-- src/vector2.rs `clamp_max`: `let len = self.magn(); if len > max { *self *= max / len; }`. -/
noncomputable def Vector2.clamp_max (v : Vector2) (max : ℝ) : Vector2 :=
  let len := v.magn
  if len > max then ⟨v.x * (max / len), v.y * (max / len)⟩ else v

/-- src/vector2.rs `clamp_min`: `let len = self.magn(); if len < min { *self *= min / len; }`. -/
noncomputable def Vector2.clamp_min (v : Vector2) (min : ℝ) : Vector2 :=
  let len := v.magn
  if len < min then ⟨v.x * (min / len), v.y * (min / len)⟩ else v

/-- src/vector2.rs `lerp`: `temp = 1.0 - factor; (v1.x*temp + v2.x*factor, v1.y*temp + v2.y*factor)`. -/
def Vector2.lerp (v1 v2 : Vector2) (factor : ℝ) : Vector2 :=
  let temp := 1 - factor
  ⟨v1.x * temp + v2.x * factor, v1.y * temp + v2.y * factor⟩

/-- src/vector2.rs `angle_between`: quadrant-corrected `atan(o/a)`. -/
noncomputable def Vector2.angle_between (v1 v2 : Vector2) : ℝ :=
  let o := v1.y * v2.x - v1.x * v2.y
  let a := v1.x * v2.x + v1.y * v2.y
  let res := Real.arctan (o / a)
  if o < 0 then
    (if a ≤ 0 then Real.pi - res else -res)
  else
    (if a < 0 then Real.pi + res else res)

/-- src/vector2.rs `rotate`: `sin_a = angle.sin(); cos_a = math::cosq(sin_a);
(x*cos_a - y*sin_a, y*cos_a + x*sin_a)`. -/
noncomputable def Vector2.rotate (v : Vector2) (angle : ℝ) : Vector2 :=
  let sin_a := Real.sin angle
  let cos_a := cosq sin_a
  ⟨v.x * cos_a - v.y * sin_a, v.y * cos_a + v.x * sin_a⟩

/-- src/vector2.rs `impl PartialEq`, method `eq`: `(self.x == other.x) && (self.y == other.y)`. -/
def Vector2.eq (v1 v2 : Vector2) : Prop := v1.x = v2.x ∧ v1.y = v2.y

/-- src/vector2.rs `impl PartialEq`, method `ne`: `(self.x != other.x) && (self.y != other.y)`. -/
def Vector2.ne (v1 v2 : Vector2) : Prop := v1.x ≠ v2.x ∧ v1.y ≠ v2.y

/-- src/vector3.rs `is_nullvector`. -/
def Vector3.is_nullvector (v : Vector3) : Prop := v.x = 0 ∧ v.y = 0 ∧ v.z = 0

/-- src/vector3.rs `magn_sq`: `self.x*self.x + self.y*self.y + self.z*self.z`. -/
def Vector3.magn_sq (v : Vector3) : ℝ := v.x * v.x + v.y * v.y + v.z * v.z

/-- src/vector3.rs `magn`: `self.magn_sq().sqrt()`. -/
noncomputable def Vector3.magn (v : Vector3) : ℝ := Real.sqrt v.magn_sq

/-- src/vector3.rs `is_normalized`: `|1.0 - self.magn_sq()| < math::EPSILON`. -/
def Vector3.is_normalized (v : Vector3) : Prop := |1 - v.magn_sq| < EPSILON

/-- src/vector3.rs `scalar`: `v1.x*v2.x + v1.y*v2.y + v1.z*v2.z`. -/
def Vector3.scalar (v1 v2 : Vector3) : ℝ := v1.x * v2.x + v1.y * v2.y + v1.z * v2.z

/-- src/vector3.rs `normalize`: scales in place by `1. / self.magn()`. -/
noncomputable def Vector3.normalize (v : Vector3) : Vector3 :=
  let inv_magn := 1 / v.magn
  ⟨v.x * inv_magn, v.y * inv_magn, v.z * inv_magn⟩

/-- src/vector3.rs `lerp`. -/
def Vector3.lerp (v1 v2 : Vector3) (factor : ℝ) : Vector3 :=
  let temp := 1 - factor
  ⟨v1.x * temp + v2.x * factor, v1.y * temp + v2.y * factor, v1.z * temp + v2.z * factor⟩

/-- src/vector3.rs `crossp`: `(y1*z2 - z1*y2, z1*x2 - x1*z2, x1*y2 - y1*x2)`. -/
def Vector3.crossp (v1 v2 : Vector3) : Vector3 :=
  ⟨v1.y * v2.z - v1.z * v2.y, v1.z * v2.x - v1.x * v2.z, v1.x * v2.y - v1.y * v2.x⟩

/-- src/vector3.rs `impl Add for &Vector3`: componentwise sum. -/
def Vector3.add (v1 v2 : Vector3) : Vector3 := ⟨v1.x + v2.x, v1.y + v2.y, v1.z + v2.z⟩

/-- src/vector3.rs `impl Mul<f64> for &Vector3` (and `MulAssign<f64>`): componentwise scale. -/
def Vector3.smul (v : Vector3) (factor : ℝ) : Vector3 := ⟨v.x * factor, v.y * factor, v.z * factor⟩

/-- src/vector3.rs `rotate` (Rodrigues):
`sin_a = angle.sin(); cos_a = math::cosq(sin_a);
temp1 = crossp(n0, self); f = scalar(n0, self);
temp1 *= sin_a; temp1 += self * cos_a; f *= 1.0 - cos_a; temp1 + n0 * f`. -/
noncomputable def Vector3.rotate (v : Vector3) (angle : ℝ) (n0 : Vector3) : Vector3 :=
  let sin_a := Real.sin angle
  let cos_a := cosq sin_a
  let temp1 := Vector3.crossp n0 v
  let f := Vector3.scalar n0 v
  let temp1' := (temp1.smul sin_a).add (v.smul cos_a)
  let f' := f * (1 - cos_a)
  temp1'.add (n0.smul f')

/-- src/vector3.rs `rotate_right`:
`crossp = crossp(n0, self); scalar = scalar(n0, self); &crossp + &(n0 * scalar)`. -/
def Vector3.rotate_right (v : Vector3) (n0 : Vector3) : Vector3 :=
  let crossp := Vector3.crossp n0 v
  let scalar := Vector3.scalar n0 v
  crossp.add (n0.smul scalar)

/-- src/vector3.rs `impl PartialEq`, method `eq`. -/
def Vector3.eq (v1 v2 : Vector3) : Prop := v1.x = v2.x ∧ v1.y = v2.y ∧ v1.z = v2.z

/-- src/vector3.rs `impl PartialEq`, method `ne`:
`(self.x != other.x) && (self.y != other.y) && (self.z != other.z)`. -/
def Vector3.ne (v1 v2 : Vector3) : Prop := v1.x ≠ v2.x ∧ v1.y ≠ v2.y ∧ v1.z ≠ v2.z

/-- An f64 value with its IEEE-754 special values: a finite real, positive
or negative infinity, or NaN (rounding and overflow idealised away, signed
zero collapsed to the real zero). -/
inductive F where
  | fin : ℝ → F
  | pinf : F
  | ninf : F
  | nan : F

open Classical in
/-- IEEE-754 f64 multiplication on `F`: finite times finite is exact,
infinity times a nonzero finite value keeps the product of the signs,
infinity times zero is NaN, NaN propagates. -/
noncomputable def F.mul : F → F → F
  | F.nan, _ => F.nan
  | F.fin _, F.nan => F.nan
  | F.pinf, F.nan => F.nan
  | F.ninf, F.nan => F.nan
  | F.fin a, F.fin b => F.fin (a * b)
  | F.fin a, F.pinf => if 0 < a then F.pinf else if a < 0 then F.ninf else F.nan
  | F.pinf, F.fin a => if 0 < a then F.pinf else if a < 0 then F.ninf else F.nan
  | F.fin a, F.ninf => if 0 < a then F.ninf else if a < 0 then F.pinf else F.nan
  | F.ninf, F.fin a => if 0 < a then F.ninf else if a < 0 then F.pinf else F.nan
  | F.pinf, F.pinf => F.pinf
  | F.pinf, F.ninf => F.ninf
  | F.ninf, F.pinf => F.ninf
  | F.ninf, F.ninf => F.pinf

/-- IEEE-754 f64 addition on `F`: finite plus finite is exact, an infinity
absorbs finite addends, opposite infinities give NaN, NaN propagates. -/
def F.add : F → F → F
  | F.nan, _ => F.nan
  | F.fin _, F.nan => F.nan
  | F.pinf, F.nan => F.nan
  | F.ninf, F.nan => F.nan
  | F.fin a, F.fin b => F.fin (a + b)
  | F.fin _, F.pinf => F.pinf
  | F.pinf, F.fin _ => F.pinf
  | F.fin _, F.ninf => F.ninf
  | F.ninf, F.fin _ => F.ninf
  | F.pinf, F.pinf => F.pinf
  | F.ninf, F.ninf => F.ninf
  | F.pinf, F.ninf => F.nan
  | F.ninf, F.pinf => F.nan

open Classical in
/-- IEEE-754 f64 division on `F`: a nonzero finite value divided by zero is
a signed infinity, zero over zero is NaN, finite over infinite is zero,
infinite over infinite is NaN, NaN propagates. -/
noncomputable def F.div : F → F → F
  | F.nan, _ => F.nan
  | F.fin _, F.nan => F.nan
  | F.pinf, F.nan => F.nan
  | F.ninf, F.nan => F.nan
  | F.fin a, F.fin b =>
      if b = 0 then (if 0 < a then F.pinf else if a < 0 then F.ninf else F.nan)
      else F.fin (a / b)
  | F.fin _, F.pinf => F.fin 0
  | F.fin _, F.ninf => F.fin 0
  | F.pinf, F.fin b => if 0 ≤ b then F.pinf else F.ninf
  | F.ninf, F.fin b => if 0 ≤ b then F.ninf else F.pinf
  | F.pinf, F.pinf => F.nan
  | F.pinf, F.ninf => F.nan
  | F.ninf, F.pinf => F.nan
  | F.ninf, F.ninf => F.nan

open Classical in
/-- IEEE-754 f64 square root on `F`: NaN on negative inputs (and on negative
infinity), exact on non-negative finite inputs, NaN propagates. -/
noncomputable def F.sqrt : F → F
  | F.nan => F.nan
  | F.pinf => F.pinf
  | F.ninf => F.nan
  | F.fin a => if a < 0 then F.nan else F.fin (Real.sqrt a)

/-- IEEE-754 f64 `==` on `F`: NaN compares unequal to everything, including
itself; other values compare by identity of the modelled value. -/
def F.feq : F → F → Prop
  | F.fin a, F.fin b => a = b
  | F.pinf, F.pinf => True
  | F.ninf, F.ninf => True
  | _, _ => False

/-- An `F` value is finite iff it carries a real number. -/
def F.isFinite : F → Prop
  | F.fin _ => True
  | _ => False

/-- Planar vector over the special-value carrier `F`, for the claims about NaN
and division by zero; fields as in src/vector2.rs. -/
structure Vector2F where
  x : F
  y : F

/-- Spatial vector over the special-value carrier `F`; fields as in src/vector3.rs. -/
structure Vector3F where
  x : F
  y : F
  z : F

/-- src/vector2.rs `scalar` over `F`: `v1.x * v2.x + v1.y * v2.y`. -/
noncomputable def Vector2F.scalar (v1 v2 : Vector2F) : F :=
  F.add (F.mul v1.x v2.x) (F.mul v1.y v2.y)

/-- src/vector3.rs `scalar` over `F`: `v1.x*v2.x + v1.y*v2.y + v1.z*v2.z`. -/
noncomputable def Vector3F.scalar (v1 v2 : Vector3F) : F :=
  F.add (F.add (F.mul v1.x v2.x) (F.mul v1.y v2.y)) (F.mul v1.z v2.z)

/-- src/vector2.rs `magn` over `F`: `( self.x*self.x + self.y*self.y ).sqrt()`. -/
noncomputable def Vector2F.magn (v : Vector2F) : F :=
  F.sqrt (F.add (F.mul v.x v.x) (F.mul v.y v.y))

/-- src/vector3.rs `magn` over `F`: `self.magn_sq().sqrt()`. -/
noncomputable def Vector3F.magn (v : Vector3F) : F :=
  F.sqrt (F.add (F.add (F.mul v.x v.x) (F.mul v.y v.y)) (F.mul v.z v.z))

/-- src/vector2.rs `normalize` over `F`:
`inv_magn = 1.0 / self.magn(); self.x *= inv_magn; self.y *= inv_magn`. -/
noncomputable def Vector2F.normalize (v : Vector2F) : Vector2F :=
  let inv_magn := F.div (F.fin 1) v.magn
  ⟨F.mul v.x inv_magn, F.mul v.y inv_magn⟩

/-- src/vector3.rs `normalize` over `F`. -/
noncomputable def Vector3F.normalize (v : Vector3F) : Vector3F :=
  let inv_magn := F.div (F.fin 1) v.magn
  ⟨F.mul v.x inv_magn, F.mul v.y inv_magn, F.mul v.z inv_magn⟩

/-- Reference rotation for claim C1, written from the spec sentence: the
counter-clockwise rotation of `v` by `angle` radians using the true cosine
and sine, `(x cos a - y sin a, y cos a + x sin a)`. -/
noncomputable def rotationSpec (v : Vector2) (angle : ℝ) : Vector2 :=
  ⟨v.x * Real.cos angle - v.y * Real.sin angle,
   v.y * Real.cos angle + v.x * Real.sin angle⟩

/-- C1 counterexample: at `angle = π` (where the true cosine is `-1`) the
source `rotate` — which uses `cosq(sin a) = sqrt(1 - sin² a) = |cos a|` —
maps `(1, 0)` to `(1, 0)`, not to the true rotation `(-1, 0)`. -/
theorem claim_C1_counterexample :
    Vector2.rotate ⟨1, 0⟩ Real.pi ≠ rotationSpec ⟨1, 0⟩ Real.pi := by
  intro h
  have hx := congrArg Vector2.x h
  simp only [Vector2.rotate, rotationSpec, cosq, Real.sin_pi, Real.cos_pi] at hx
  norm_num at hx

/-- C1 amended: `Vector2::rotate(v, a)` returns
`(x·|cos a| - y·sin a, y·|cos a| + x·sin a)`; it coincides with the true
counter-clockwise rotation by `a` exactly on the angles whose cosine is
non-negative. -/
theorem claim_C1 (v : Vector2) (angle : ℝ) (h : 0 ≤ Real.cos angle) :
    Vector2.rotate v angle = rotationSpec v angle := by
  have hc : cosq (Real.sin angle) = Real.cos angle := by
    unfold cosq
    have h1 : 1 - Real.sin angle * Real.sin angle = Real.cos angle * Real.cos angle := by
      have h2 := Real.sin_sq_add_cos_sq angle
      nlinarith [h2]
    rw [h1, Real.sqrt_mul_self h]
  ext <;> simp [Vector2.rotate, rotationSpec, hc]

/-- C1 witness: the amended theorem applied at `v = (2, 3)`, `angle = 0`. -/
theorem claim_C1_witness :
    (0 : ℝ) ≤ Real.cos 0 ∧ Vector2.rotate ⟨2, 3⟩ 0 = rotationSpec ⟨2, 3⟩ 0 :=
  ⟨by norm_num [Real.cos_zero], claim_C1 ⟨2, 3⟩ 0 (by norm_num [Real.cos_zero])⟩

/-- C3: the cross product is orthogonal to both of its inputs:
`scalar(crossp(v1, v2), v1) = 0` and `scalar(crossp(v1, v2), v2) = 0`. -/
theorem claim_C3 (v1 v2 : Vector3) :
    Vector3.scalar (Vector3.crossp v1 v2) v1 = 0 ∧
    Vector3.scalar (Vector3.crossp v1 v2) v2 = 0 := by
  constructor <;> simp [Vector3.scalar, Vector3.crossp] <;> ring

/-- C5: linear interpolation reproduces its endpoints: `lerp(v1, v2, 0) = v1`
and `lerp(v1, v2, 1) = v2`, for `Vector2` and `Vector3`. -/
theorem claim_C5 (v1 v2 : Vector2) (w1 w2 : Vector3) :
    Vector2.lerp v1 v2 0 = v1 ∧ Vector2.lerp v1 v2 1 = v2 ∧
    Vector3.lerp w1 w2 0 = w1 ∧ Vector3.lerp w1 w2 1 = w2 := by
  refine ⟨?_, ?_, ?_, ?_⟩ <;> ext <;>
    simp [Vector2.lerp, Vector3.lerp]

/-- C10: the trigonometry-free quarter turn agrees with the general
Rodrigues rotation at a right angle: `rotate_right(v, n0) = rotate(v, 0.5·π, n0)`
(in the exact-real embedding, where `sin(π/2) = 1` and `cosq(1) = 0`). -/
theorem claim_C10 (v n0 : Vector3) :
    Vector3.rotate_right v n0 = Vector3.rotate v (0.5 * Real.pi) n0 := by
  have hs : Real.sin (0.5 * Real.pi) = 1 := by
    rw [show (0.5 : ℝ) * Real.pi = Real.pi / 2 by ring, Real.sin_pi_div_two]
  have hc : cosq 1 = 0 := by
    norm_num [cosq]
  ext <;>
    simp [Vector3.rotate_right, Vector3.rotate, hs, hc, Vector3.add, Vector3.smul,
      Vector3.crossp, Vector3.scalar]

/-- A sum of two squares is positive unless both summands vanish. -/
theorem sum_sq_pos_two {a b : ℝ} (h : ¬(a = 0 ∧ b = 0)) : 0 < a * a + b * b := by
  rcases not_and_or.mp h with ha | hb
  · nlinarith [mul_self_pos.mpr ha, mul_self_nonneg b]
  · nlinarith [mul_self_pos.mpr hb, mul_self_nonneg a]

/-- A sum of three squares is positive unless all three summands vanish. -/
theorem sum_sq_pos_three {a b c : ℝ} (h : ¬(a = 0 ∧ b = 0 ∧ c = 0)) :
    0 < a * a + b * b + c * c := by
  by_cases ha : a = 0
  · by_cases hb : b = 0
    · have hc : c ≠ 0 := by tauto
      nlinarith [mul_self_pos.mpr hc, mul_self_nonneg a, mul_self_nonneg b]
    · nlinarith [mul_self_pos.mpr hb, mul_self_nonneg a, mul_self_nonneg c]
  · nlinarith [mul_self_pos.mpr ha, mul_self_nonneg b, mul_self_nonneg c]

/-- C2: normalizing a non-null vector yields a vector whose magnitude is
within `1e-8` of `1` (in the exact-real embedding it is exactly `1`) and on
which `is_normalized` holds, for `Vector2` and `Vector3`. -/
theorem claim_C2 (v : Vector2) (w : Vector3)
    (h2 : ¬ v.is_nullvector) (h3 : ¬ w.is_nullvector) :
    (|v.normalize.magn - 1| < 1e-8 ∧ v.normalize.is_normalized) ∧
    (|w.normalize.magn - 1| < 1e-8 ∧ w.normalize.is_normalized) := by
  have hs2 : 0 < v.x * v.x + v.y * v.y := sum_sq_pos_two h2
  have hs3 : 0 < w.x * w.x + w.y * w.y + w.z * w.z := sum_sq_pos_three h3
  have hm2 : v.magn ≠ 0 := ne_of_gt (Real.sqrt_pos.mpr hs2)
  have hm3 : w.magn ≠ 0 := ne_of_gt (Real.sqrt_pos.mpr hs3)
  have key2 : (Vector2.normalize v).magn_sq = 1 := by
    show v.x * (1 / v.magn) * (v.x * (1 / v.magn)) +
         v.y * (1 / v.magn) * (v.y * (1 / v.magn)) = 1
    have e : v.x * (1 / v.magn) * (v.x * (1 / v.magn)) +
             v.y * (1 / v.magn) * (v.y * (1 / v.magn)) =
             (v.x * v.x + v.y * v.y) / (v.magn * v.magn) := by ring
    rw [e, show v.magn * v.magn = v.x * v.x + v.y * v.y from Real.mul_self_sqrt hs2.le,
      div_self (ne_of_gt hs2)]
  have key3 : (Vector3.normalize w).magn_sq = 1 := by
    show w.x * (1 / w.magn) * (w.x * (1 / w.magn)) +
         w.y * (1 / w.magn) * (w.y * (1 / w.magn)) +
         w.z * (1 / w.magn) * (w.z * (1 / w.magn)) = 1
    have e : w.x * (1 / w.magn) * (w.x * (1 / w.magn)) +
             w.y * (1 / w.magn) * (w.y * (1 / w.magn)) +
             w.z * (1 / w.magn) * (w.z * (1 / w.magn)) =
             (w.x * w.x + w.y * w.y + w.z * w.z) / (w.magn * w.magn) := by ring
    rw [e, show w.magn * w.magn = w.x * w.x + w.y * w.y + w.z * w.z from
      Real.mul_self_sqrt hs3.le, div_self (ne_of_gt hs3)]
  have keyM2 : (Vector2.normalize v).magn = 1 := by
    have h' : (Vector2.normalize v).magn = Real.sqrt ((Vector2.normalize v).magn_sq) := rfl
    rw [h', key2, Real.sqrt_one]
  have keyM3 : (Vector3.normalize w).magn = 1 := by
    have h' : (Vector3.normalize w).magn = Real.sqrt ((Vector3.normalize w).magn_sq) := rfl
    rw [h', key3, Real.sqrt_one]
  refine ⟨⟨?_, ?_⟩, ?_, ?_⟩
  · rw [keyM2]; norm_num
  · show |1 - (Vector2.normalize v).magn_sq| < EPSILON
    rw [key2]; norm_num [EPSILON]
  · rw [keyM3]; norm_num
  · show |1 - (Vector3.normalize w).magn_sq| < EPSILON
    rw [key3]; norm_num [EPSILON]

/-- C2 witness: the theorem applied at `v = (3, 4)` and `w = (1, 2, 2)`. -/
theorem claim_C2_witness :
    (¬ (Vector2.mk 3 4).is_nullvector ∧ ¬ (Vector3.mk 1 2 2).is_nullvector) ∧
    (|(Vector2.mk 3 4).normalize.magn - 1| < 1e-8 ∧
      (Vector2.mk 3 4).normalize.is_normalized) ∧
    (|(Vector3.mk 1 2 2).normalize.magn - 1| < 1e-8 ∧
      (Vector3.mk 1 2 2).normalize.is_normalized) := by
  have h := claim_C2 ⟨3, 4⟩ ⟨1, 2, 2⟩
    (by norm_num [Vector2.is_nullvector]) (by norm_num [Vector3.is_nullvector])
  exact ⟨⟨by norm_num [Vector2.is_nullvector], by norm_num [Vector3.is_nullvector]⟩,
    h.1, h.2⟩

/-- Reference value for claim C6, written from the claim's case split over
`o = y1·x2 - x1·y2` and `a = x1·x2 + y1·y2`. -/
noncomputable def angleSpec (v1 v2 : Vector2) : ℝ :=
  let o := v1.y * v2.x - v1.x * v2.y
  let a := v1.x * v2.x + v1.y * v2.y
  if o < 0 ∧ a ≤ 0 then Real.pi - Real.arctan (o / a)
  else if o < 0 ∧ 0 < a then -Real.arctan (o / a)
  else if 0 ≤ o ∧ a < 0 then Real.pi + Real.arctan (o / a)
  else Real.arctan (o / a)

/-- C6: for `a = x1·x2 + y1·y2 ≠ 0`, `Vector2::angle_between` returns exactly
the quadrant-corrected `atan(o/a)` case split of the claim. -/
theorem claim_C6 (v1 v2 : Vector2) (h : v1.x * v2.x + v1.y * v2.y ≠ 0) :
    Vector2.angle_between v1 v2 = angleSpec v1 v2 := by
  by_cases ho : v1.y * v2.x - v1.x * v2.y < 0
  · by_cases ha : v1.x * v2.x + v1.y * v2.y ≤ 0
    · simp [Vector2.angle_between, angleSpec, ho, ha]
    · simp [Vector2.angle_between, angleSpec, ho, ha, not_le.mp ha, not_le.mpr ho]
  · by_cases ha : v1.x * v2.x + v1.y * v2.y < 0
    · simp [Vector2.angle_between, angleSpec, ho, ha, not_lt.mp ho]
    · simp [Vector2.angle_between, angleSpec, ho, ha]

/-- C6 witness: the theorem applied at `v1 = (1, 0)`, `v2 = (1, 1)`, where
the dot term is `1 ≠ 0`. -/
theorem claim_C6_witness :
    (Vector2.mk 1 0).x * (Vector2.mk 1 1).x + (Vector2.mk 1 0).y * (Vector2.mk 1 1).y ≠ 0 ∧
    Vector2.angle_between ⟨1, 0⟩ ⟨1, 1⟩ = angleSpec ⟨1, 0⟩ ⟨1, 1⟩ :=
  ⟨by norm_num, claim_C6 ⟨1, 0⟩ ⟨1, 1⟩ (by norm_num)⟩

/-- C8: `clamp_max` is the identity when the magnitude does not exceed `max`,
and `clamp_min` is the identity when the magnitude is not below `min`. -/
theorem claim_C8 (v : Vector2) (mx mn : ℝ) (hmax : v.magn ≤ mx) (hmin : mn ≤ v.magn) :
    v.clamp_max mx = v ∧ v.clamp_min mn = v := by
  constructor
  · show (if v.magn > mx then _ else v) = v
    rw [if_neg (not_lt.mpr hmax)]
  · show (if v.magn < mn then _ else v) = v
    rw [if_neg (not_lt.mpr hmin)]

/-- C8 witness: the theorem applied at `v = (3, 4)` (magnitude 5), `max = 10`,
`min = 1`. -/
theorem claim_C8_witness :
    (Vector2.mk 3 4).magn ≤ 10 ∧ 1 ≤ (Vector2.mk 3 4).magn ∧
    (Vector2.mk 3 4).clamp_max 10 = Vector2.mk 3 4 ∧
    (Vector2.mk 3 4).clamp_min 1 = Vector2.mk 3 4 := by
  have h5 : (Vector2.mk 3 4).magn = 5 := by
    show Real.sqrt (3 * 3 + 4 * 4) = 5
    rw [show (3 : ℝ) * 3 + 4 * 4 = 5 ^ 2 by norm_num, Real.sqrt_sq (by norm_num)]
  have h := claim_C8 ⟨3, 4⟩ 10 1 (by rw [h5]; norm_num) (by rw [h5]; norm_num)
  exact ⟨by rw [h5]; norm_num, by rw [h5]; norm_num, h.1, h.2⟩

/-- C9: the source `ne` is the componentwise conjunction of component
inequalities (not the negation of `eq`), so two vectors that differ in
exactly one component satisfy neither `eq` nor `ne`; for `Vector2` and
`Vector3`. -/
theorem claim_C9 (v1 v2 : Vector2) (w1 w2 : Vector3)
    (h2 : (v1.x ≠ v2.x ∧ v1.y = v2.y) ∨ (v1.x = v2.x ∧ v1.y ≠ v2.y))
    (h3 : (w1.x ≠ w2.x ∧ w1.y = w2.y ∧ w1.z = w2.z) ∨
          (w1.x = w2.x ∧ w1.y ≠ w2.y ∧ w1.z = w2.z) ∨
          (w1.x = w2.x ∧ w1.y = w2.y ∧ w1.z ≠ w2.z)) :
    (Vector2.ne v1 v2 ↔ (v1.x ≠ v2.x ∧ v1.y ≠ v2.y)) ∧
    (¬ Vector2.eq v1 v2 ∧ ¬ Vector2.ne v1 v2) ∧
    (Vector3.ne w1 w2 ↔ (w1.x ≠ w2.x ∧ w1.y ≠ w2.y ∧ w1.z ≠ w2.z)) ∧
    (¬ Vector3.eq w1 w2 ∧ ¬ Vector3.ne w1 w2) := by
  refine ⟨Iff.rfl, ?_, Iff.rfl, ?_⟩
  · simp only [Vector2.eq, Vector2.ne]; tauto
  · simp only [Vector3.eq, Vector3.ne]; tauto

/-- C9 witness: the theorem applied at `(0,0)` vs `(1,0)` and `(0,0,0)` vs
`(1,0,0)`, which differ in exactly the first component. -/
theorem claim_C9_witness :
    (¬ Vector2.eq ⟨0, 0⟩ ⟨1, 0⟩ ∧ ¬ Vector2.ne ⟨0, 0⟩ ⟨1, 0⟩) ∧
    (¬ Vector3.eq ⟨0, 0, 0⟩ ⟨1, 0, 0⟩ ∧ ¬ Vector3.ne ⟨0, 0, 0⟩ ⟨1, 0, 0⟩) := by
  have h := claim_C9 ⟨0, 0⟩ ⟨1, 0⟩ ⟨0, 0, 0⟩ ⟨1, 0, 0⟩ (by norm_num) (by norm_num)
  exact ⟨h.2.1, h.2.2.2⟩

/-- IEEE multiplication on `F` is commutative as a value map. -/
theorem F.mul_comm (a b : F) : F.mul a b = F.mul b a := by
  cases a <;> cases b <;> simp [F.mul] <;> ring

/-- Equality per `feq` holds reflexively on every `F` value other than NaN. -/
theorem F.feq_refl {a : F} (h : a ≠ F.nan) : F.feq a a := by
  cases a <;> simp [F.feq] at h ⊢

/-- C4 counterexample: with a NaN component the dot product is NaN, and the
f64 `==` comparison of the two NaN results returns false, so
`scalar(v1, v2) == scalar(v2, v1)` fails at `v1 = (NaN, 0)`, `v2 = (0, 0)`. -/
theorem claim_C4_counterexample :
    ¬ F.feq (Vector2F.scalar ⟨F.nan, F.fin 0⟩ ⟨F.fin 0, F.fin 0⟩)
            (Vector2F.scalar ⟨F.fin 0, F.fin 0⟩ ⟨F.nan, F.fin 0⟩) := by
  simp [Vector2F.scalar, F.mul, F.add, F.feq]

/-- C4 amended: the two dot products are identical f64 values for all inputs
(multiplication and addition commute on `F`), and the `==` comparison
additionally returns true whenever that common value is not NaN. -/
theorem claim_C4 (v1 v2 : Vector2F) (w1 w2 : Vector3F) :
    Vector2F.scalar v1 v2 = Vector2F.scalar v2 v1 ∧
    Vector3F.scalar w1 w2 = Vector3F.scalar w2 w1 ∧
    (Vector2F.scalar v1 v2 ≠ F.nan →
      F.feq (Vector2F.scalar v1 v2) (Vector2F.scalar v2 v1)) ∧
    (Vector3F.scalar w1 w2 ≠ F.nan →
      F.feq (Vector3F.scalar w1 w2) (Vector3F.scalar w2 w1)) := by
  have e2 : Vector2F.scalar v1 v2 = Vector2F.scalar v2 v1 := by
    simp only [Vector2F.scalar]
    rw [F.mul_comm v1.x v2.x, F.mul_comm v1.y v2.y]
  have e3 : Vector3F.scalar w1 w2 = Vector3F.scalar w2 w1 := by
    simp only [Vector3F.scalar]
    rw [F.mul_comm w1.x w2.x, F.mul_comm w1.y w2.y, F.mul_comm w1.z w2.z]
  refine ⟨e2, e3, ?_, ?_⟩
  · intro h2; rw [← e2]; exact F.feq_refl h2
  · intro h3; rw [← e3]; exact F.feq_refl h3

/-- C4 witness: the amended theorem applied at all-finite vectors, where the
dot products are finite and `==` succeeds. -/
theorem claim_C4_witness :
    Vector2F.scalar ⟨F.fin 1, F.fin 2⟩ ⟨F.fin 3, F.fin 4⟩ ≠ F.nan ∧
    Vector3F.scalar ⟨F.fin 1, F.fin 2, F.fin 3⟩ ⟨F.fin 4, F.fin 5, F.fin 6⟩ ≠ F.nan ∧
    F.feq (Vector2F.scalar ⟨F.fin 1, F.fin 2⟩ ⟨F.fin 3, F.fin 4⟩)
          (Vector2F.scalar ⟨F.fin 3, F.fin 4⟩ ⟨F.fin 1, F.fin 2⟩) ∧
    F.feq (Vector3F.scalar ⟨F.fin 1, F.fin 2, F.fin 3⟩ ⟨F.fin 4, F.fin 5, F.fin 6⟩)
          (Vector3F.scalar ⟨F.fin 4, F.fin 5, F.fin 6⟩ ⟨F.fin 1, F.fin 2, F.fin 3⟩) := by
  have hn2 : Vector2F.scalar ⟨F.fin 1, F.fin 2⟩ ⟨F.fin 3, F.fin 4⟩ ≠ F.nan := by
    simp [Vector2F.scalar, F.mul, F.add]
  have hn3 : Vector3F.scalar ⟨F.fin 1, F.fin 2, F.fin 3⟩ ⟨F.fin 4, F.fin 5, F.fin 6⟩ ≠ F.nan := by
    simp [Vector3F.scalar, F.mul, F.add]
  have h := claim_C4 ⟨F.fin 1, F.fin 2⟩ ⟨F.fin 3, F.fin 4⟩
    ⟨F.fin 1, F.fin 2, F.fin 3⟩ ⟨F.fin 4, F.fin 5, F.fin 6⟩
  exact ⟨hn2, hn3, h.2.2.1 hn2, h.2.2.2 hn3⟩

/-- C7: normalizing the null vector terminates without any error report and
leaves every component non-finite: the magnitude is `0`, `1/0` gives `+inf`,
and `0 · inf` gives NaN in every component, for `Vector2` and `Vector3`. -/
theorem claim_C7 :
    Vector2F.normalize ⟨F.fin 0, F.fin 0⟩ = ⟨F.nan, F.nan⟩ ∧
    Vector3F.normalize ⟨F.fin 0, F.fin 0, F.fin 0⟩ = ⟨F.nan, F.nan, F.nan⟩ ∧
    ¬ F.isFinite (Vector2F.normalize ⟨F.fin 0, F.fin 0⟩).x ∧
    ¬ F.isFinite (Vector2F.normalize ⟨F.fin 0, F.fin 0⟩).y ∧
    ¬ F.isFinite (Vector3F.normalize ⟨F.fin 0, F.fin 0, F.fin 0⟩).x ∧
    ¬ F.isFinite (Vector3F.normalize ⟨F.fin 0, F.fin 0, F.fin 0⟩).y ∧
    ¬ F.isFinite (Vector3F.normalize ⟨F.fin 0, F.fin 0, F.fin 0⟩).z := by
  have h2 : Vector2F.normalize ⟨F.fin 0, F.fin 0⟩ = ⟨F.nan, F.nan⟩ := by
    simp [Vector2F.normalize, Vector2F.magn, F.mul, F.add, F.sqrt, F.div]
  have h3 : Vector3F.normalize ⟨F.fin 0, F.fin 0, F.fin 0⟩ = ⟨F.nan, F.nan, F.nan⟩ := by
    simp [Vector3F.normalize, Vector3F.magn, F.mul, F.add, F.sqrt, F.div]
  refine ⟨h2, h3, ?_, ?_, ?_, ?_, ?_⟩ <;> simp [h2, h3, F.isFinite]

end CuteGorl
